import Mathlib

/-!
# volume-sync: shallow embedding and verification

A shallow embedding of the sink-tracking and volume-propagation engine of
`volume-sync` (src/main.rs, src/volume_sync.rs, src/config.rs), together with
proofs of the spec's testable properties.

Modelling choices:
* PulseAudio sink indices (`u32`) are modelled as `Nat` (no arithmetic overflows
  occur: indices are only compared for equality and stored in sets).
* A sink's channel-volume record is modelled as an opaque `Nat` scalar; the code
  copies the whole record verbatim, so only identity of the value matters.
* The server's sink table is an association list `List RawSinkInfo` keyed by
  `index`; `get_sink_info_by_index` is a `find?`, `set_sink_volume_by_index`
  rewrites the volume of every entry with the given index.
* The `HashSet<u32>` of tracked indices is modelled as a duplicate-free list:
  `insert` is a no-op on a present element, `remove` filters.  Iteration order
  of the hash set is arbitrary in the source; the list fixes one order, and all
  proved properties are insensitive to it.
* Log calls are modelled by their level tag only (messages elided); server
  interactions by an explicit operation trace.
-/

namespace VolumeSyncModel

/-- Log levels, from `enum LogLevel` in src/config.rs / src/main.rs. -/
inductive LogLevel where
  | Off
  | Error
  | Warn
  | Info
  | Debug
  | Trace
deriving DecidableEq

/-- `struct Config { sinks: Vec<String>, log_level: Option<LogLevel> }`. -/
structure Config where
  sinks : List String
  log_level : Option LogLevel
deriving DecidableEq

/-- `Config::default()`: empty sink list, log level `Some(Info)`. -/
def Config.default : Config :=
  { sinks := [], log_level := some LogLevel.Info }

/-- `struct SinkDetails { index: u32, name: String }`. -/
structure SinkDetails where
  index : Nat
  name : String
deriving DecidableEq

/-- The sink record held by the audio server: the fields of
`pulse::SinkInfo` that the program reads (`index`, `name: Option<String>`,
and the volume record, modelled as an opaque scalar). -/
structure RawSinkInfo where
  index : Nat
  name : Option String
  volume : Nat
deriving DecidableEq

/-- `enum VolumeSyncEvent` from src/main.rs. -/
inductive VolumeSyncEvent where
  | SinkNew (sink : SinkDetails)
  | SinkChanged (index : Nat)
  | SinkRemoved (index : Nat)
  | ConfigChanged
deriving DecidableEq

/-- A level-tagged log call (messages elided). -/
inductive LogTag where
  | error
  | warn
  | info
  | debug
deriving DecidableEq

/-- An operation issued to the audio server by `sync_volume`. -/
inductive ServerOp where
  | getByIndex (i : Nat)
  | setVolume (i : Nat) (v : Nat)
deriving DecidableEq

/-- `pulse::callbacks::ListResult`: one callback invocation of an introspect
list operation. -/
inductive ListResult (α : Type) where
  | Item (value : α)
  | EndOfList
  | Error
deriving DecidableEq

/-- `notify::event::AccessMode`. -/
inductive AccessMode where
  | Any
  | Execute
  | Read
  | Write
  | Other
deriving DecidableEq

/-- `notify::event::AccessKind`. -/
inductive AccessKind where
  | Any
  | Read
  | Open (mode : AccessMode)
  | Close (mode : AccessMode)
  | Other
deriving DecidableEq

/-- `notify::event::CreateKind`. -/
inductive CreateKind where
  | Any
  | File
  | Folder
  | Other
deriving DecidableEq

/-- `notify::event::DataChange`. -/
inductive DataChange where
  | Any
  | Size
  | Content
  | Other
deriving DecidableEq

/-- `notify::event::MetadataKind`. -/
inductive MetadataKind where
  | Any
  | AccessTime
  | WriteTime
  | Permissions
  | Ownership
  | Extended
  | Other
deriving DecidableEq

/-- `notify::event::RenameMode`. -/
inductive RenameMode where
  | Any
  | To
  | From
  | Both
  | Other
deriving DecidableEq

/-- `notify::event::ModifyKind`. -/
inductive ModifyKind where
  | Any
  | Data (change : DataChange)
  | Metadata (kind : MetadataKind)
  | Name (mode : RenameMode)
  | Other
deriving DecidableEq

/-- `notify::event::RemoveKind`. -/
inductive RemoveKind where
  | Any
  | File
  | Folder
  | Other
deriving DecidableEq

/-- `notify::EventKind`. -/
inductive EventKind where
  | Any
  | Access (kind : AccessKind)
  | Create (kind : CreateKind)
  | Modify (kind : ModifyKind)
  | Remove (kind : RemoveKind)
  | Other
deriving DecidableEq

/-- The config-file watcher callback (src/main.rs:103): a `ConfigChanged`
event is sent exactly when the event's first path (`""` when the path list is
empty) equals the configuration file path and the event kind is
`Create(File)`, `Modify(Name(To))` or `Modify(Data(_))`; everything else —
including `Remove` — falls into the `_ => log::debug!(...)` arm and is
ignored.  Returns whether `ConfigChanged` was sent. -/
def watcherSends (configFile : String) (paths : List String) (kind : EventKind) :
    Bool :=
  if paths.head?.getD "" = configFile then
    match kind with
    | EventKind.Create CreateKind.File => true
    | EventKind.Modify (ModifyKind.Name RenameMode.To) => true
    | EventKind.Modify (ModifyKind.Data _) => true
    | _ => false
  else false

/-- The audio server's sink table. -/
abbrev ServerState := List RawSinkInfo

/-- `introspect().get_sink_info_by_index(i, ...)`: the sink record the server
reports for index `i`, or `none` when no such sink exists. -/
def getSinkInfoByIndex (server : ServerState) (i : Nat) : Option RawSinkInfo :=
  server.find? (fun si => si.index == i)

/-- `introspect().set_sink_volume_by_index(i, v, None)`: overwrite the volume
of the sink with index `i` (no-op when absent). -/
def setSinkVolumeByIndex (server : ServerState) (i : Nat) (v : Nat) : ServerState :=
  server.map (fun si => if si.index = i then { si with volume := v } else si)

/-- Result of one `VolumeSync::sync_volume` call: the server state afterwards,
the trace of server operations issued, and the log calls made. -/
structure SyncResult where
  server : ServerState
  ops : List ServerOp
  logs : List LogTag
deriving DecidableEq

/-- `VolumeSync::sync_volume(&self, from: u32, to: u32)` (src/main.rs:231,
src/volume_sync.rs:36): returns immediately when `from == to`; otherwise logs
at info level, issues a fresh `get_sink_info_by_index(from)`, and — only when
the query yields an item — applies the fetched volume verbatim with
`set_sink_volume_by_index(to, ...)`.  A missing sink (or an error result) is
silently absorbed. -/
def sync_volume (server : ServerState) (fromIndex toIndex : Nat) : SyncResult :=
  if fromIndex = toIndex then
    { server := server, ops := [], logs := [] }
  else
    match getSinkInfoByIndex server fromIndex with
    | some info =>
        { server := setSinkVolumeByIndex server toIndex info.volume
          ops := [ServerOp.getByIndex fromIndex,
                  ServerOp.setVolume toIndex info.volume]
          logs := [LogTag.info] }
    | none =>
        { server := server
          ops := [ServerOp.getByIndex fromIndex]
          logs := [LogTag.info] }

/-- `HashSet::insert` on the tracked-index set (duplicate-free list model). -/
def insertIndex (indices : List Nat) (i : Nat) : List Nat :=
  if i ∈ indices then indices else i :: indices

/-- `HashSet::remove` on the tracked-index set. -/
def removeIndex (indices : List Nat) (i : Nat) : List Nat :=
  indices.filter (fun j => j != i)

/-- The `update_sink_indices` closure (src/main.rs:149): clear the set, then
insert the index of every enumerated sink whose name is in `cfg.sinks`. -/
def update_sink_indices (sinks : List SinkDetails) (names : List String) : List Nat :=
  sinks.foldl
    (fun indices sink =>
      if sink.name ∈ names then insertIndex indices sink.index else indices)
    []

/-- The `VolumeSyncEvent::SinkNew` arm of the dispatcher (src/main.rs:166):
insert the index iff the sink's name is among the configured names. -/
def handleSinkNew (indices : List Nat) (names : List String) (sink : SinkDetails) :
    List Nat :=
  if sink.name ∈ names then insertIndex indices sink.index else indices

/-- The `VolumeSyncEvent::SinkRemoved` arm of the dispatcher (src/main.rs:181):
remove the index unconditionally. -/
def handleSinkRemoved (indices : List Nat) (i : Nat) : List Nat :=
  removeIndex indices i

/-- Accumulated result of the `SinkChanged` dispatcher arm: final server state,
server-operation trace, the list of `sync_volume(from, to)` invocations made by
the dispatcher, and log calls. -/
structure ChangedResult where
  server : ServerState
  ops : List ServerOp
  calls : List (Nat × Nat)
  logs : List LogTag
deriving DecidableEq

/-- The `for i in indices.iter()` loop of the `SinkChanged` arm
(src/main.rs:176): invoke `sync_volume(fromIndex, t)` for every tracked index
`t` in turn, threading the server state. -/
def syncAll (server : ServerState) (fromIndex : Nat) :
    List Nat → ChangedResult
  | [] => { server := server, ops := [], calls := [], logs := [] }
  | t :: ts =>
      let r := sync_volume server fromIndex t
      let rest := syncAll r.server fromIndex ts
      { server := rest.server
        ops := r.ops ++ rest.ops
        calls := (fromIndex, t) :: rest.calls
        logs := r.logs ++ rest.logs }

/-- The `VolumeSyncEvent::SinkChanged` arm (src/main.rs:173): if the changed
index is tracked, run `sync_volume(index, i)` for every tracked `i` (including
`index` itself — the source loop has no self-filter); otherwise do nothing. -/
def processSinkChanged (server : ServerState) (indices : List Nat) (index : Nat) :
    ChangedResult :=
  if index ∈ indices then syncAll server index indices
  else { server := server, ops := [], calls := [], logs := [] }

/-- `handle_config_change` (src/main.rs:85): normalize the loaded config —
an absent `log_level` becomes `Info` — and store it wholesale.  (Its debug/info
log calls are elided.) -/
def handle_config_change (c : Config) : Config :=
  { log_level := some (c.log_level.getD LogLevel.Info), sinks := c.sinks }

/-- `VolumeSync::get_sinks` (src/main.rs:378): enumerate the server's sinks; a
sink whose reported name is absent is recorded with the empty string
(`map_or_else(|| "".to_string(), ...)`). -/
def get_sinks (server : ServerState) : List SinkDetails :=
  server.map (fun si => { index := si.index, name := si.name.getD "" })

/-- The `Operation::New` subscribe-callback branch (src/main.rs:328): fetch the
sink by index; enqueue a `SinkNew` event only when the result is an item *and*
the sink has a name — a nameless sink produces no event. -/
def newSinkEvent (index : Nat) (result : ListResult RawSinkInfo) :
    Option VolumeSyncEvent :=
  match result with
  | ListResult.Item info =>
      match info.name with
      | some name => some (VolumeSyncEvent.SinkNew { index := index, name := name })
      | none => none
  | ListResult.EndOfList => none
  | ListResult.Error => none

/-- The dispatcher's mutable state: tracked indices, the stored `Config`, and
the audio server's sink table (mutated through `sync_volume`). -/
structure AppState where
  indices : List Nat
  config : Config
  server : ServerState
deriving DecidableEq

/-- Result of dispatching one event. -/
structure StepResult where
  state : AppState
  ops : List ServerOp
  calls : List (Nat × Nat)
  logs : List LogTag
deriving DecidableEq

/-- One iteration of the dispatcher loop (src/main.rs:162).  `loaded` is the
result of the `load_config()` filesystem read performed while handling
`ConfigChanged`; for the other events it is unused.  On `ConfigChanged` the
new configuration is stored (falling back to `Config.default` with a warn log
when loading failed) and the tracked-index set is rebuilt from a fresh sink
enumeration. -/
def handleEvent (st : AppState) (loaded : Option Config) :
    VolumeSyncEvent → StepResult
  | VolumeSyncEvent.SinkNew sink =>
      { state := { st with indices := handleSinkNew st.indices st.config.sinks sink }
        ops := [], calls := [], logs := [] }
  | VolumeSyncEvent.SinkChanged index =>
      let r := processSinkChanged st.server st.indices index
      { state := { st with server := r.server }
        ops := r.ops, calls := r.calls, logs := r.logs }
  | VolumeSyncEvent.SinkRemoved index =>
      { state := { st with indices := handleSinkRemoved st.indices index }
        ops := [], calls := [], logs := [] }
  | VolumeSyncEvent.ConfigChanged =>
      match loaded with
      | some c =>
          let cfg := handle_config_change c
          { state := { indices := update_sink_indices (get_sinks st.server) cfg.sinks
                       config := cfg
                       server := st.server }
            ops := [], calls := [], logs := [] }
      | none =>
          let cfg := handle_config_change Config.default
          { state := { indices := update_sink_indices (get_sinks st.server) cfg.sinks
                       config := cfg
                       server := st.server }
            ops := [], calls := [], logs := [LogTag.warn] }

/-- The startup sequence of `main` (src/main.rs:96 and 160): load the config
(warn and fall back to the default when that fails), then build the
tracked-index set from a full enumeration. -/
def startup (loaded : Option Config) (server : ServerState) :
    AppState × List LogTag :=
  match loaded with
  | some c =>
      let cfg := handle_config_change c
      ({ indices := update_sink_indices (get_sinks server) cfg.sinks
         config := cfg, server := server }, [])
  | none =>
      let cfg := handle_config_change Config.default
      ({ indices := update_sink_indices (get_sinks server) cfg.sinks
         config := cfg, server := server }, [LogTag.warn])

/-! ## Helper lemmas -/

theorem mem_insertIndex (indices : List Nat) (i j : Nat) :
    j ∈ insertIndex indices i ↔ j = i ∨ j ∈ indices := by
  unfold insertIndex
  by_cases h : i ∈ indices
  · simp only [if_pos h]
    constructor
    · exact fun hj => Or.inr hj
    · rintro (rfl | hj)
      · exact h
      · exact hj
  · simp [if_neg h, List.mem_cons]

theorem mem_removeIndex (indices : List Nat) (i j : Nat) :
    j ∈ removeIndex indices i ↔ j ∈ indices ∧ j ≠ i := by
  unfold removeIndex
  simp [List.mem_filter]

theorem mem_update_sink_indices_aux (names : List String) (i : Nat) :
    ∀ (sinks : List SinkDetails) (init : List Nat),
      i ∈ sinks.foldl
            (fun indices sink =>
              if sink.name ∈ names then insertIndex indices sink.index else indices)
            init
        ↔ i ∈ init ∨ ∃ s ∈ sinks, s.index = i ∧ s.name ∈ names := by
  intro sinks
  induction sinks with
  | nil => intro init; simp
  | cons s ss ih =>
      intro init
      rw [List.foldl_cons, ih]
      by_cases h : s.name ∈ names
      · simp only [if_pos h, mem_insertIndex, List.mem_cons]
        constructor
        · rintro ((rfl | hi) | hex)
          · exact Or.inr ⟨s, Or.inl rfl, rfl, h⟩
          · exact Or.inl hi
          · obtain ⟨x, hx, hxi, hxn⟩ := hex
            exact Or.inr ⟨x, Or.inr hx, hxi, hxn⟩
        · rintro (hi | hex)
          · exact Or.inl (Or.inr hi)
          · obtain ⟨x, hx | hx, hxi, hxn⟩ := hex
            · subst hx; exact Or.inl (Or.inl hxi.symm)
            · exact Or.inr ⟨x, hx, hxi, hxn⟩
      · simp only [if_neg h, List.mem_cons]
        constructor
        · rintro (hi | hex)
          · exact Or.inl hi
          · obtain ⟨x, hx, hxi, hxn⟩ := hex
            exact Or.inr ⟨x, Or.inr hx, hxi, hxn⟩
        · rintro (hi | hex)
          · exact Or.inl hi
          · obtain ⟨x, hx | hx, hxi, hxn⟩ := hex
            · subst hx; exact absurd hxn h
            · exact Or.inr ⟨x, hx, hxi, hxn⟩

theorem mem_update_sink_indices (sinks : List SinkDetails) (names : List String)
    (i : Nat) :
    i ∈ update_sink_indices sinks names
      ↔ ∃ s ∈ sinks, s.index = i ∧ s.name ∈ names := by
  unfold update_sink_indices
  rw [mem_update_sink_indices_aux]
  simp

theorem update_sink_indices_nil_names (sinks : List SinkDetails) :
    update_sink_indices sinks [] = [] := by
  unfold update_sink_indices
  induction sinks with
  | nil => rfl
  | cons s ss ih =>
      rw [List.foldl_cons, if_neg (List.not_mem_nil s.name)]
      exact ih

theorem getSinkInfoByIndex_set (server : ServerState) (t v i : Nat) :
    getSinkInfoByIndex (setSinkVolumeByIndex server t v) i
      = if i = t
        then (getSinkInfoByIndex server i).map (fun si => { si with volume := v })
        else getSinkInfoByIndex server i := by
  induction server with
  | nil => by_cases h : i = t <;> simp [getSinkInfoByIndex, setSinkVolumeByIndex, h]
  | cons hd tl ih =>
      by_cases hp : hd.index = i
      · by_cases hit : i = t
        · subst hit
          simp [getSinkInfoByIndex, setSinkVolumeByIndex, List.find?, hp]
        · have hht : hd.index ≠ t := by rw [hp]; exact hit
          simp [getSinkInfoByIndex, setSinkVolumeByIndex, List.find?, hp, hht, hit]
      · have hb : (hd.index == i) = false := by simp [hp]
        by_cases hht : hd.index = t
        · have hti : ¬ t = i := by rw [← hht]; exact hp
          have hit : ¬ i = t := fun h => hti h.symm
          have hbt : (t == i) = false := by simp [hti]
          simpa [getSinkInfoByIndex, setSinkVolumeByIndex, List.find?, hp, hht, hti,
            hit, hbt] using ih
        · simpa [getSinkInfoByIndex, setSinkVolumeByIndex, List.find?, hp, hht,
            hb] using ih

theorem sync_volume_self (server : ServerState) (x : Nat) :
    sync_volume server x x = { server := server, ops := [], logs := [] } := by
  simp [sync_volume]

theorem sync_volume_miss (server : ServerState) (fromIndex toIndex : Nat)
    (hne : fromIndex ≠ toIndex)
    (h : getSinkInfoByIndex server fromIndex = none) :
    sync_volume server fromIndex toIndex
      = { server := server
          ops := [ServerOp.getByIndex fromIndex]
          logs := [LogTag.info] } := by
  simp [sync_volume, hne, h]

theorem sync_volume_hit (server : ServerState) (fromIndex toIndex : Nat)
    (info : RawSinkInfo) (hne : fromIndex ≠ toIndex)
    (h : getSinkInfoByIndex server fromIndex = some info) :
    sync_volume server fromIndex toIndex
      = { server := setSinkVolumeByIndex server toIndex info.volume
          ops := [ServerOp.getByIndex fromIndex,
                  ServerOp.setVolume toIndex info.volume]
          logs := [LogTag.info] } := by
  simp [sync_volume, hne, h]

theorem syncAll_calls (server : ServerState) (fromIndex : Nat) (ts : List Nat) :
    (syncAll server fromIndex ts).calls = ts.map (fun t => (fromIndex, t)) := by
  induction ts generalizing server with
  | nil => rfl
  | cons t ts ih => simp [syncAll, ih]

theorem syncAll_lookup (fromIndex : Nat) (info : RawSinkInfo) (ts : List Nat) :
    ∀ (server : ServerState),
      getSinkInfoByIndex server fromIndex = some info →
      ∀ i, getSinkInfoByIndex (syncAll server fromIndex ts).server i
        = if i ≠ fromIndex ∧ i ∈ ts
          then (getSinkInfoByIndex server i).map (fun si => { si with volume := info.volume })
          else getSinkInfoByIndex server i := by
  induction ts with
  | nil => intro server _ i; simp [syncAll]
  | cons t ts ih =>
      intro server h i
      by_cases hta : t = fromIndex
      · subst hta
        simp only [syncAll, sync_volume_self]
        rw [ih server h i]
        by_cases hif : i = t
        · simp [hif]
        · simp [hif, List.mem_cons]
      · have hne : fromIndex ≠ t := fun hc => hta hc.symm
        have h' : getSinkInfoByIndex (setSinkVolumeByIndex server t info.volume) fromIndex
            = some info := by
          rw [getSinkInfoByIndex_set, if_neg hne, h]
        simp only [syncAll, sync_volume_hit server fromIndex t info hne h]
        rw [ih _ h' i, getSinkInfoByIndex_set]
        have hcomp :
            ((fun si : RawSinkInfo => { si with volume := info.volume }) ∘
              (fun si : RawSinkInfo => { si with volume := info.volume }))
            = fun si : RawSinkInfo => { si with volume := info.volume } := rfl
        by_cases hif : i = fromIndex
        · simp [hif, hne]
        · by_cases hmem : i ∈ ts
          · by_cases hit : i = t
            · simp [hif, hmem, hit, hta, Option.map_map, hcomp]
            · simp [hif, hmem, hit, hta]
          · by_cases hit : i = t
            · subst hit
              rw [if_neg (fun hc => hmem hc.2), if_pos rfl,
                  if_pos (show i ≠ fromIndex ∧ i ∈ i :: ts from
                    ⟨hif, List.mem_cons_self i ts⟩)]
            · simp [hif, hmem, hit, hta, List.mem_cons]

theorem syncAll_ops (fromIndex : Nat) (info : RawSinkInfo) (ts : List Nat) :
    ∀ (server : ServerState),
      getSinkInfoByIndex server fromIndex = some info →
      (syncAll server fromIndex ts).ops
        = (ts.map (fun t =>
            if t = fromIndex then ([] : List ServerOp)
            else [ServerOp.getByIndex fromIndex,
                  ServerOp.setVolume t info.volume])).flatten := by
  induction ts with
  | nil => intro server _; rfl
  | cons t ts ih =>
      intro server h
      by_cases hta : t = fromIndex
      · subst hta
        simp only [syncAll, sync_volume_self]
        rw [ih server h]
        simp
      · have hne : fromIndex ≠ t := fun hc => hta hc.symm
        have h' : getSinkInfoByIndex (setSinkVolumeByIndex server t info.volume) fromIndex
            = some info := by
          rw [getSinkInfoByIndex_set, if_neg hne, h]
        simp only [syncAll, sync_volume_hit server fromIndex t info hne h]
        rw [ih _ h']
        simp [hta]

theorem syncAll_setVolume_verbatim (server : ServerState) (fromIndex : Nat)
    (info : RawSinkInfo) (ts : List Nat)
    (h : getSinkInfoByIndex server fromIndex = some info)
    (t v : Nat) (hmem : ServerOp.setVolume t v ∈ (syncAll server fromIndex ts).ops) :
    v = info.volume ∧ t ≠ fromIndex ∧ t ∈ ts := by
  rw [syncAll_ops fromIndex info ts server h] at hmem
  rw [List.mem_flatten] at hmem
  obtain ⟨sub, hsub, hop⟩ := hmem
  rw [List.mem_map] at hsub
  obtain ⟨t', ht', rfl⟩ := hsub
  by_cases hta : t' = fromIndex
  · rw [if_pos hta] at hop
    exact absurd hop (List.not_mem_nil _)
  · rw [if_neg hta] at hop
    simp only [List.mem_cons, List.not_mem_nil, or_false] at hop
    rcases hop with hop | hop
    · simp at hop
    · injection hop with h1 h2
      subst h1
      subst h2
      exact ⟨rfl, hta, ht'⟩

/-! ## Claims -/

/-- C8: for every index `x`, `sync_volume(x, x)` returns immediately without
issuing any server read (`getByIndex`) or write (`setVolume`); when source and
destination are identical no external effect occurs (the server state is
untouched and nothing is logged). -/
theorem claim_C8_sync_self_no_effect (server : ServerState) (x : Nat) :
    sync_volume server x x = { server := server, ops := [], logs := [] } := by
  simp [sync_volume]

/-- C6: for `from ≠ to`, when the fresh by-index query inside
`sync_volume(from, to)` returns no sink, the operation completes having issued
only the read — no set-volume call — with the server state unchanged, and the
only log call is the unconditional info-level one (no error or warning is
reported). -/
theorem claim_C6_missing_sink_silently_absorbed (server : ServerState)
    (fromIndex toIndex : Nat) (hne : fromIndex ≠ toIndex)
    (h : getSinkInfoByIndex server fromIndex = none) :
    sync_volume server fromIndex toIndex
      = { server := server
          ops := [ServerOp.getByIndex fromIndex]
          logs := [LogTag.info] } := by
  simp [sync_volume, hne, h]

/-- Witness for C6: syncing from the absent index 0 to index 5 on a server
that only has sink 5. -/
theorem claim_C6_witness :
    sync_volume [{ index := 5, name := some "Chat", volume := 40 }] 0 5
      = { server := [{ index := 5, name := some "Chat", volume := 40 }]
          ops := [ServerOp.getByIndex 0]
          logs := [LogTag.info] } :=
  claim_C6_missing_sink_silently_absorbed
    [{ index := 5, name := some "Chat", volume := 40 }] 0 5
    (by decide) (by decide)

/-- C2: after a full rebuild (`update_sink_indices`, used at startup and on
`ConfigChanged`), the tracked-index set holds exactly the indices of
enumerated sinks whose name is among the configured names; the incremental
`SinkNew` handler inserts the index iff its name is tracked, and the
`SinkRemoved` handler removes the index unconditionally — neither triggers a
rebuild. -/
theorem claim_C2_registry_consistency :
    (∀ (sinks : List SinkDetails) (names : List String) (i : Nat),
      i ∈ update_sink_indices sinks names
        ↔ ∃ s ∈ sinks, s.index = i ∧ s.name ∈ names)
    ∧ (∀ (indices : List Nat) (names : List String) (s : SinkDetails) (j : Nat),
      j ∈ handleSinkNew indices names s
        ↔ j ∈ indices ∨ (j = s.index ∧ s.name ∈ names))
    ∧ (∀ (indices : List Nat) (i j : Nat),
      j ∈ handleSinkRemoved indices i ↔ j ∈ indices ∧ j ≠ i) := by
  refine ⟨mem_update_sink_indices, ?_, fun indices i j => mem_removeIndex indices i j⟩
  intro indices names s j
  unfold handleSinkNew
  by_cases h : s.name ∈ names
  · rw [if_pos h, mem_insertIndex]
    constructor
    · rintro (rfl | hj)
      · exact Or.inr ⟨rfl, h⟩
      · exact Or.inl hj
    · rintro (hj | ⟨rfl, _⟩)
      · exact Or.inr hj
      · exact Or.inl rfl
  · rw [if_neg h]
    constructor
    · exact fun hj => Or.inl hj
    · rintro (hj | ⟨_, hn⟩)
      · exact hj
      · exact absurd hn h

/-- C9: a sink whose server-reported name is absent is treated asymmetrically:
the full enumeration `get_sinks` substitutes `""` for the missing name, so on
rebuild such a sink's index enters the tracked set iff `""` is among the
configured names; the incremental `New`-subscription path never produces a
`SinkNew` event for a nameless sink, so it can never enter the set
incrementally. -/
theorem claim_C9_nameless_sink_asymmetry (server : ServerState) (i v : Nat)
    (names : List String)
    (hmem : ({ index := i, name := none, volume := v } : RawSinkInfo) ∈ server)
    (huniq : ∀ si ∈ server, si.index = i → si.name = none) :
    (i ∈ update_sink_indices (get_sinks server) names ↔ "" ∈ names)
    ∧ ∀ (j w : Nat),
        newSinkEvent j (ListResult.Item { index := j, name := none, volume := w })
          = none := by
  refine ⟨?_, fun j w => rfl⟩
  rw [mem_update_sink_indices]
  constructor
  · rintro ⟨s, hs, hsi, hsn⟩
    rw [get_sinks, List.mem_map] at hs
    obtain ⟨si, hsi', rfl⟩ := hs
    have hname : si.name = none := huniq si hsi' hsi
    rw [hname] at hsn
    exact hsn
  · intro hnil
    refine ⟨{ index := i, name := "" }, ?_, rfl, hnil⟩
    rw [get_sinks, List.mem_map]
    exact ⟨{ index := i, name := none, volume := v }, hmem, rfl⟩

/-- Witness for C9: a server holding exactly one nameless sink with index 7,
with `""` among the tracked names. -/
theorem claim_C9_witness :
    (7 ∈ update_sink_indices (get_sinks [{ index := 7, name := none, volume := 40 }])
        [""] ↔ "" ∈ [""])
    ∧ ∀ (j w : Nat),
        newSinkEvent j (ListResult.Item { index := j, name := none, volume := w })
          = none :=
  claim_C9_nameless_sink_asymmetry [{ index := 7, name := none, volume := 40 }]
    7 40 [""] (by decide) (by decide)

/-- C10: every configuration update — startup load, reload, or fallback to the
default — stores a config whose `log_level` is `some` concrete level: an
absent `log_level` is normalized to `Info` by `handle_config_change` before
the configuration slot is overwritten. -/
theorem claim_C10_log_level_always_concrete :
    (∀ c : Config,
      (handle_config_change c).log_level = some (c.log_level.getD LogLevel.Info))
    ∧ (∀ sinks : List String,
      (handle_config_change { sinks := sinks, log_level := none }).log_level
        = some LogLevel.Info)
    ∧ (∀ (st : AppState) (loaded : Option Config),
      ((handleEvent st loaded VolumeSyncEvent.ConfigChanged).state.config.log_level).isSome
        = true)
    ∧ (∀ (loaded : Option Config) (server : ServerState),
      ((startup loaded server).1.config.log_level).isSome = true) := by
  refine ⟨fun c => rfl, fun sinks => rfl, ?_, ?_⟩
  · intro st loaded
    cases loaded <;> simp [handleEvent, handle_config_change]
  · intro loaded server
    cases loaded <;> simp [startup, handle_config_change]

/-- C7: when `load_config()` fails (returns no config) while handling
`ConfigChanged` — and likewise at startup — the dispatcher falls back to the
default configuration with an empty tracked-name set, so the subsequent
rebuild leaves the tracked-index set empty; a warning is logged and the
handler completes normally (it is a total function of the state). -/
theorem claim_C7_config_failure_fallback (st : AppState) (server : ServerState) :
    ((handleEvent st none VolumeSyncEvent.ConfigChanged).state.config.sinks = []
      ∧ (handleEvent st none VolumeSyncEvent.ConfigChanged).state.config.log_level
          = some LogLevel.Info
      ∧ (handleEvent st none VolumeSyncEvent.ConfigChanged).state.indices = []
      ∧ (handleEvent st none VolumeSyncEvent.ConfigChanged).logs = [LogTag.warn])
    ∧ ((startup none server).1.config.sinks = []
      ∧ (startup none server).1.indices = []
      ∧ (startup none server).2 = [LogTag.warn]) := by
  constructor
  · refine ⟨rfl, rfl, ?_, rfl⟩
    show update_sink_indices (get_sinks st.server)
      (handle_config_change Config.default).sinks = []
    exact update_sink_indices_nil_names _
  · refine ⟨rfl, ?_, rfl⟩
    show update_sink_indices (get_sinks server)
      (handle_config_change Config.default).sinks = []
    exact update_sink_indices_nil_names _

/-- C1 counterexample: with tracked set `{0, 1}` the dispatcher's
`SinkChanged(0)` arm invokes `sync_volume` for *every* tracked index — the
loop has no self-filter — so the invocation `(0, 0)` (i.e. `sync(A, A)`)
does occur, contradicting "never sync(A,A) / only for every other tracked
index distinct from the changed index". -/
theorem claim_C1_counterexample :
    (handleEvent
        { indices := [0, 1]
          config := { sinks := ["Chat", "Game"], log_level := some LogLevel.Info }
          server := [{ index := 0, name := some "Chat", volume := 50 },
                     { index := 1, name := some "Game", volume := 80 }] }
        none (VolumeSyncEvent.SinkChanged 0)).calls = [(0, 0), (0, 1)]
    ∧ (0, 0) ∈ (handleEvent
        { indices := [0, 1]
          config := { sinks := ["Chat", "Game"], log_level := some LogLevel.Info }
          server := [{ index := 0, name := some "Chat", volume := 50 },
                     { index := 1, name := some "Game", volume := 80 }] }
        none (VolumeSyncEvent.SinkChanged 0)).calls := by
  constructor
  · decide
  · decide

/-- C1 (amended): for tracked set `{A, B}`, processing `SinkChanged(A)` makes
the dispatcher invoke `sync_volume(A, i)` for every tracked `i` *including*
`A` itself; the self-invocation `sync(A, A)` returns immediately without any
server operation, so exactly one effective propagation occurs — a read of `A`
followed by one set-volume of `B` — and no server operation ever targets the
pair `(A, A)`. -/
theorem claim_C1_amended_single_effective_propagation (server : ServerState)
    (A B : Nat) (info : RawSinkInfo) (hAB : A ≠ B)
    (hinfo : getSinkInfoByIndex server A = some info) :
    (processSinkChanged server [A, B] A).calls = [(A, A), (A, B)]
    ∧ (processSinkChanged server [A, B] A).ops
        = [ServerOp.getByIndex A, ServerOp.setVolume B info.volume]
    ∧ sync_volume server A A = { server := server, ops := [], logs := [] } := by
  have hmem : A ∈ [A, B] := List.mem_cons_self A [B]
  have hBA : ¬ B = A := fun hc => hAB hc.symm
  refine ⟨?_, ?_, by simp [sync_volume]⟩
  · rw [processSinkChanged, if_pos hmem, syncAll_calls]
    rfl
  · rw [processSinkChanged, if_pos hmem, syncAll_ops A info [A, B] server hinfo]
    simp [hBA]

/-- Witness for C1 (amended): tracked set `{3, 9}`, changed sink 3 at
volume 42. -/
theorem claim_C1_amended_witness :
    (processSinkChanged
        [{ index := 3, name := none, volume := 42 },
         { index := 9, name := none, volume := 7 }] [3, 9] 3).calls
      = [(3, 3), (3, 9)]
    ∧ (processSinkChanged
        [{ index := 3, name := none, volume := 42 },
         { index := 9, name := none, volume := 7 }] [3, 9] 3).ops
      = [ServerOp.getByIndex 3, ServerOp.setVolume 9 42]
    ∧ sync_volume
        [{ index := 3, name := none, volume := 42 },
         { index := 9, name := none, volume := 7 }] 3 3
      = { server := [{ index := 3, name := none, volume := 42 },
                     { index := 9, name := none, volume := 7 }]
          ops := [], logs := [] } :=
  claim_C1_amended_single_effective_propagation
    [{ index := 3, name := none, volume := 42 },
     { index := 9, name := none, volume := 7 }]
    3 9 { index := 3, name := none, volume := 42 } (by decide) (by decide)

/-- C3 counterexample: a `Remove(File)` event for the configuration file path
itself does *not* send `ConfigChanged` — the watcher callback's match has no
arm for delete events — contradicting "raises ConfigReloaded ... for ...
delete events on the configuration file path". -/
theorem claim_C3_counterexample :
    watcherSends "/home/user/.config/volume-sync.toml"
      ["/home/user/.config/volume-sync.toml"]
      (EventKind.Remove RemoveKind.File) = false := by
  decide

/-- C3 (amended): the watcher sends `ConfigChanged` exactly when the event's
first path is the configuration file path and the kind is file-create
(`Create(File)`), rename-into (`Modify(Name(To))`), or data-modify
(`Modify(Data(_))`); delete events and every other filesystem event are
ignored. -/
theorem claim_C3_amended_watcher_event_filter (configFile : String)
    (paths : List String) (kind : EventKind) :
    watcherSends configFile paths kind = true
      ↔ (paths.head?.getD "" = configFile
          ∧ (kind = EventKind.Create CreateKind.File
             ∨ kind = EventKind.Modify (ModifyKind.Name RenameMode.To)
             ∨ ∃ change, kind = EventKind.Modify (ModifyKind.Data change))) := by
  unfold watcherSends
  by_cases hp : paths.head?.getD "" = configFile
  · rw [if_pos hp]
    cases kind with
    | Any => simp [hp]
    | Access a => simp [hp]
    | Create c => cases c <;> simp [hp]
    | Modify m =>
        cases m with
        | Any => simp [hp]
        | Data change => simp [hp]
        | Metadata mk => simp [hp]
        | Name mode => cases mode <;> simp [hp]
        | Other => simp [hp]
    | Remove r => simp [hp]
    | Other => simp [hp]
  · rw [if_neg hp]
    simp [hp]

/-- C4: if the changed sink `A` is tracked and present on the server with
record `info`, then after the `SinkChanged(A)` event is fully processed every
other tracked sink that exists on the server has its record's volume replaced
by exactly `info.volume` (name and index untouched), `A`'s own record is
unchanged, and every set-volume operation issued carries the fetched value
verbatim. -/
theorem claim_C4_convergence (st : AppState) (loaded : Option Config) (A : Nat)
    (info : RawSinkInfo) (hA : A ∈ st.indices)
    (hinfo : getSinkInfoByIndex st.server A = some info) :
    (∀ i ∈ st.indices, i ≠ A →
      getSinkInfoByIndex
          (handleEvent st loaded (VolumeSyncEvent.SinkChanged A)).state.server i
        = (getSinkInfoByIndex st.server i).map
            (fun si => { si with volume := info.volume }))
    ∧ getSinkInfoByIndex
          (handleEvent st loaded (VolumeSyncEvent.SinkChanged A)).state.server A
        = some info
    ∧ (∀ t v,
        ServerOp.setVolume t v
            ∈ (handleEvent st loaded (VolumeSyncEvent.SinkChanged A)).ops
          → v = info.volume) := by
  have hserver :
      (handleEvent st loaded (VolumeSyncEvent.SinkChanged A)).state.server
        = (syncAll st.server A st.indices).server := by
    show (processSinkChanged st.server st.indices A).server = _
    rw [processSinkChanged, if_pos hA]
  have hops :
      (handleEvent st loaded (VolumeSyncEvent.SinkChanged A)).ops
        = (syncAll st.server A st.indices).ops := by
    show (processSinkChanged st.server st.indices A).ops = _
    rw [processSinkChanged, if_pos hA]
  refine ⟨?_, ?_, ?_⟩
  · intro i hi hne
    rw [hserver, syncAll_lookup A info st.indices st.server hinfo i,
        if_pos ⟨hne, hi⟩]
  · rw [hserver, syncAll_lookup A info st.indices st.server hinfo A,
        if_neg (fun hc => hc.1 rfl), hinfo]
  · intro t v hmem
    rw [hops] at hmem
    exact (syncAll_setVolume_verbatim st.server A info st.indices hinfo t v hmem).1

/-- Witness for C4: the spec's scenario — sinks 10 = "Chat" (volume 30 after
the change) and 11 = "Game" (volume 80), both tracked; after `SinkChanged(10)`
sink 11's record has volume 30. -/
theorem claim_C4_witness :
    getSinkInfoByIndex
        (handleEvent
          { indices := [10, 11]
            config := { sinks := ["Chat", "Game"], log_level := some LogLevel.Info }
            server := [{ index := 10, name := some "Chat", volume := 30 },
                       { index := 11, name := some "Game", volume := 80 }] }
          none (VolumeSyncEvent.SinkChanged 10)).state.server 11
      = some { index := 11, name := some "Game", volume := 30 } := by
  have h :=
    claim_C4_convergence
      { indices := [10, 11]
        config := { sinks := ["Chat", "Game"], log_level := some LogLevel.Info }
        server := [{ index := 10, name := some "Chat", volume := 30 },
                   { index := 11, name := some "Game", volume := 80 }] }
      none 10 { index := 10, name := some "Chat", volume := 30 }
      (by decide) (by decide)
  rw [h.1 11 (by decide) (by decide)]
  rfl

/-- C5: a `SinkChanged` event for an untracked index triggers no propagation
(no `sync_volume` invocation, no server operation, state unchanged); in
particular, for a tracked index `A`, processing `SinkRemoved(A)` and then
`SinkChanged(A)` issues no `sync_volume` call and no server operation. -/
theorem claim_C5_untracked_never_propagates (st : AppState)
    (loaded loaded1 loaded2 : Option Config) (j A : Nat)
    (hj : j ∉ st.indices) (_hA : A ∈ st.indices) :
    ((handleEvent st loaded (VolumeSyncEvent.SinkChanged j)).calls = []
      ∧ (handleEvent st loaded (VolumeSyncEvent.SinkChanged j)).ops = []
      ∧ (handleEvent st loaded (VolumeSyncEvent.SinkChanged j)).state = st)
    ∧ ((handleEvent
          (handleEvent st loaded1 (VolumeSyncEvent.SinkRemoved A)).state loaded2
          (VolumeSyncEvent.SinkChanged A)).calls = []
      ∧ (handleEvent
          (handleEvent st loaded1 (VolumeSyncEvent.SinkRemoved A)).state loaded2
          (VolumeSyncEvent.SinkChanged A)).ops = []) := by
  have huntracked : ∀ (st' : AppState) (l : Option Config) (k : Nat),
      k ∉ st'.indices →
      (handleEvent st' l (VolumeSyncEvent.SinkChanged k)).calls = []
        ∧ (handleEvent st' l (VolumeSyncEvent.SinkChanged k)).ops = []
        ∧ (handleEvent st' l (VolumeSyncEvent.SinkChanged k)).state = st' := by
    intro st' l k hk
    have hproc : processSinkChanged st'.server st'.indices k
        = { server := st'.server, ops := [], calls := [], logs := [] } := by
      rw [processSinkChanged, if_neg hk]
    refine ⟨?_, ?_, ?_⟩
    · show (processSinkChanged st'.server st'.indices k).calls = []
      rw [hproc]
    · show (processSinkChanged st'.server st'.indices k).ops = []
      rw [hproc]
    · show ({ st' with server := (processSinkChanged st'.server st'.indices k).server }
          : AppState) = st'
      rw [hproc]
  have hremoved : A ∉
      (handleEvent st loaded1 (VolumeSyncEvent.SinkRemoved A)).state.indices := by
    show A ∉ handleSinkRemoved st.indices A
    intro hc
    exact ((mem_removeIndex st.indices A A).1 hc).2 rfl
  obtain ⟨h1, h2, h3⟩ := huntracked st loaded j hj
  obtain ⟨h4, h5, _⟩ :=
    huntracked (handleEvent st loaded1 (VolumeSyncEvent.SinkRemoved A)).state
      loaded2 A hremoved
  exact ⟨⟨h1, h2, h3⟩, h4, h5⟩

/-- Witness for C5: tracked set `{5}`; untracked index 7 triggers nothing, and
after `SinkRemoved(5)` a `SinkChanged(5)` triggers nothing. -/
theorem claim_C5_witness :
    ((handleEvent { indices := [5], config := Config.default, server := [] }
        none (VolumeSyncEvent.SinkChanged 7)).calls = []
      ∧ (handleEvent { indices := [5], config := Config.default, server := [] }
          none (VolumeSyncEvent.SinkChanged 7)).ops = []
      ∧ (handleEvent { indices := [5], config := Config.default, server := [] }
          none (VolumeSyncEvent.SinkChanged 7)).state
        = { indices := [5], config := Config.default, server := [] })
    ∧ ((handleEvent
          (handleEvent { indices := [5], config := Config.default, server := [] }
            none (VolumeSyncEvent.SinkRemoved 5)).state none
          (VolumeSyncEvent.SinkChanged 5)).calls = []
      ∧ (handleEvent
          (handleEvent { indices := [5], config := Config.default, server := [] }
            none (VolumeSyncEvent.SinkRemoved 5)).state none
          (VolumeSyncEvent.SinkChanged 5)).ops = []) :=
  claim_C5_untracked_never_propagates
    { indices := [5], config := Config.default, server := [] }
    none none none 7 5 (by decide) (by decide)

end VolumeSyncModel
